import Mathlib

/-!
Shallow embedding of the financial aggregation and forecasting engine of
`src/components/Visualizations.tsx` (personal-finance tracker "Anggaran").

Conventions of the embedding:
* Monetary amounts are integer-denominated and modelled as `Int`.
* Timestamps are modelled structurally as UTC civil components
  (year, month, day, hour, minute).  The code's `toISOString().slice(0, 7)`
  month key is modelled as the pair `(year, month)`; this is faithful because
  `toISOString` always emits the canonical zero-padded `YYYY-MM-...` form, on
  which string truncation and prefix tests agree with componentwise equality.
* `toLocaleDateString` (caller-local calendar date) is modelled by adding the
  caller's UTC offset in minutes (`tz`, local minus UTC) to the time of day and
  rolling the civil day when the result leaves `[0, 1440)`.  Real offsets are
  within plus or minus 14 hours, so a single day of rollover is exact.
* JS objects used as accumulators are modelled as insertion-ordered
  association lists; JS `Set` is modelled as first-occurrence deduplication.
* `Array.prototype.sort` with comparators `(a, b) => b.v - a.v` (numeric
  descending) and default string sort on `YYYY-MM` keys is modelled with
  `List.insertionSort` under the corresponding total relation.
-/

namespace Anggaran

/-- Gregorian leap-year rule, as implemented by the JS `Date` calendar. -/
def isLeapYear (y : Nat) : Bool :=
  (y % 4 == 0 && y % 100 != 0) || y % 400 == 0

/-- Translation of `new Date(y, m, 0).getDate()` for a 1-based month `m`
(so of `new Date(year, month + 1, 0).getDate()` with `month` 0-based, as in
`fetchForecast`, and of the `daysInMonth` computation in `trendData`):
the number of days of the month, with months beyond 12 rolling into
subsequent years as the JS `Date` constructor does. -/
def daysInMonth (y m : Nat) : Nat :=
  let y2 := y + (m - 1) / 12
  let m2 := (m - 1) % 12 + 1
  if m2 == 2 then (if isLeapYear y2 then 29 else 28)
  else if m2 == 4 || m2 == 6 || m2 == 9 || m2 == 11 then 30
  else 31

/-- A point in time, carried by every transaction record; kept as UTC civil
components (the instant denoted by the record's epoch timestamp). -/
structure Timestamp where
  year : Nat
  month : Nat
  day : Nat
  hour : Nat
  minute : Nat
deriving DecidableEq, Repr

/-- Translation of `new Date(t).toISOString().slice(0, 7)`: the UTC
year-month key of a timestamp. -/
def utcKey (t : Timestamp) : Nat × Nat := (t.year, t.month)

/-- The civil day after `(y, m, d)`. -/
def nextCivilDay (y m d : Nat) : Nat × Nat × Nat :=
  if d + 1 ≤ daysInMonth y m then (y, m, d + 1)
  else if m + 1 ≤ 12 then (y, m + 1, 1)
  else (y + 1, 1, 1)

/-- The civil day before `(y, m, d)`. -/
def prevCivilDay (y m d : Nat) : Nat × Nat × Nat :=
  if 1 < d then (y, m, d - 1)
  else if 1 < m then (y, m - 1, daysInMonth y (m - 1))
  else (y - 1, 12, 31)

/-- Translation of `new Date(t).toLocaleDateString('fr-CA')`: the calendar
date of the instant `t` in the caller's local time zone, where `tz` is the
local-minus-UTC offset in minutes.  Exact for offsets within one day, which
covers every real-world offset. -/
def localCivilDay (tz : Int) (t : Timestamp) : Nat × Nat × Nat :=
  let mins : Int := ((t.hour * 60 + t.minute : Nat) : Int) + tz
  if mins < 0 then prevCivilDay t.year t.month t.day
  else if 1440 ≤ mins then nextCivilDay t.year t.month t.day
  else (t.year, t.month, t.day)

/-- Transaction direction: `'add'` (credit) or `'remove'` (debit). -/
inductive TxType
| add
| remove
deriving DecidableEq, Repr

/-- A transaction inside an archived batch (`archive.transactions`); its
`category` field may be absent (`undefined` in the source's record shape). -/
structure ArchiveTx where
  timestamp : Timestamp
  amount : Int
  type : TxType
  category : Option String
deriving DecidableEq, Repr

/-- An archived batch of transactions. -/
structure Archive where
  transactions : List ArchiveTx
deriving DecidableEq, Repr

/-- A general fund history entry (`state.fundHistory`). -/
structure FundTx where
  timestamp : Timestamp
  amount : Int
  type : TxType
deriving DecidableEq, Repr

/-- A budget's historical spend entry (`budget.history`). -/
structure BudgetTx where
  timestamp : Timestamp
  amount : Int
deriving DecidableEq, Repr

/-- A budget definition (`state.budgets` element). -/
structure Budget where
  name : String
  totalBudget : Int
  history : List BudgetTx
deriving DecidableEq, Repr

/-- A daily/ad-hoc expense (`state.dailyExpenses` element); `sourceCategory`
may be absent or empty. -/
structure DailyExpense where
  timestamp : Timestamp
  amount : Int
  sourceCategory : Option String
deriving DecidableEq, Repr

/-- The slice of the application state read by the visualization engine. -/
structure AppState where
  archives : List Archive
  fundHistory : List FundTx
  budgets : List Budget
  dailyExpenses : List DailyExpense
deriving DecidableEq, Repr

/-- A record of the unified ledger (`GlobalTransaction` in the source); its
`category` field may still be absent for records coming from archives. -/
structure GlobalTransaction where
  timestamp : Timestamp
  amount : Int
  type : TxType
  category : Option String
deriving DecidableEq, Repr

/-- JS `s || fallback` on an optional string: `undefined` and the empty
string are falsy and yield the fallback. -/
def orFallback (c : Option String) (fallback : String) : String :=
  match c with
  | none => fallback
  | some s => if s = "" then fallback else s

/-- Translation of the `allExpenses` memo (the Ledger Normalizer): merge the
four provenances into one sequence of expense records.  Archive records are
pushed as they are (category untouched), debit fund-history entries get the
fixed category `'Pengeluaran Umum'`, budget history entries get the budget's
name, daily expenses get `sourceCategory || 'Harian'`. -/
def allExpenses (s : AppState) : List GlobalTransaction :=
  (s.archives.flatMap fun a =>
    (a.transactions.filter fun t => decide (t.type = TxType.remove)).map fun t =>
      { timestamp := t.timestamp, amount := t.amount, type := t.type,
        category := t.category })
  ++ ((s.fundHistory.filter fun t => decide (t.type = TxType.remove)).map fun t =>
      { timestamp := t.timestamp, amount := t.amount, type := t.type,
        category := some "Pengeluaran Umum" })
  ++ (s.budgets.flatMap fun b => b.history.map fun h =>
      { timestamp := h.timestamp, amount := h.amount, type := TxType.remove,
        category := some b.name })
  ++ (s.dailyExpenses.map fun t =>
      { timestamp := t.timestamp, amount := t.amount, type := TxType.remove,
        category := some (orFallback t.sourceCategory "Harian") })

/-- The selected reporting period: the `'all'` sentinel or a `YYYY-MM` key,
modelled structurally as a year-month pair. -/
inductive PeriodKey
| all
| month (y m : Nat)
deriving DecidableEq, Repr

/-- Translation of the `filteredExpenses` memo: the full ledger for `'all'`,
otherwise the records whose ISO string starts with the selected `YYYY-MM`
key, i.e. whose UTC year-month equals the selected one. -/
def filteredExpenses (sel : PeriodKey) (ledger : List GlobalTransaction) :
    List GlobalTransaction :=
  match sel with
  | .all => ledger
  | .month y m => ledger.filter fun e => decide (utcKey e.timestamp = (y, m))

/-- Translation of the `totalIncomeForMonth` memo: 0 for `'all'`, otherwise
the sum of `'add'`-typed fund-history entries of the selected month. -/
def totalIncomeForMonth (sel : PeriodKey) (fundHistory : List FundTx) : Int :=
  match sel with
  | .all => 0
  | .month y m =>
    ((fundHistory.filter fun t =>
        decide (t.type = TxType.add ∧ utcKey t.timestamp = (y, m))).map
      fun t => t.amount).foldl (· + ·) 0

/-- One step of the JS accumulator objects `expenseByCategory` and
`dailyTotals`: initialize an absent key at 0, then add the amount.  Modelled
as an insertion-ordered association list. -/
def bump {K : Type} [DecidableEq K] (acc : List (K × Int)) (k : K) (v : Int) :
    List (K × Int) :=
  match acc with
  | [] => [(k, v)]
  | (k0, v0) :: t => if k0 = k then (k0, v0 + v) :: t else (k0, v0) :: bump t k v

/-- Key lookup in an accumulator object (`obj[k]`, `undefined` when absent). -/
def lookupTotal {K : Type} [DecidableEq K] (acc : List (K × Int)) (k : K) :
    Option Int :=
  match acc with
  | [] => none
  | (k0, v0) :: t => if k0 = k then some v0 else lookupTotal t k

/-- JS `x || 0` on a possibly-absent number: `undefined` and `0` give 0. -/
def jsOrZero (v : Option Int) : Int :=
  match v with
  | none => 0
  | some x => if x = 0 then 0 else x

/-- The `forEach`-accumulation pattern shared by `pieChartData`, `trendData`
and `budgetComparisonData`: group the records by `key`, summing amounts. -/
def accumulate {K : Type} [DecidableEq K] (key : GlobalTransaction → K)
    (es : List GlobalTransaction) : List (K × Int) :=
  es.foldl (fun acc e => bump acc (key e) e.amount) []

/-- The category under which a ledger record is aggregated:
`expense.category || 'Lain-lain'`. -/
def resolvedCategory (e : GlobalTransaction) : String :=
  orFallback e.category "Lain-lain"

/-- A slice of the category pie: `{ name, value }`. -/
structure PieSlice where
  name : String
  value : Int
deriving DecidableEq, Repr

/-- The order of the comparator `(a, b) => b.value - a.value`: descending
by value. -/
def pieDescend (a b : PieSlice) : Prop := b.value ≤ a.value

instance : DecidableRel pieDescend := fun a b =>
  inferInstanceAs (Decidable (b.value ≤ a.value))

instance : IsTotal PieSlice pieDescend := ⟨fun a b => le_total b.value a.value⟩

instance : IsTrans PieSlice pieDescend := ⟨fun _ _ _ h1 h2 => le_trans h2 h1⟩

/-- Translation of the `pieChartData` memo (the Categorical Aggregator):
group the filtered records by resolved category, then sort by total
descending. -/
def pieChartData (es : List GlobalTransaction) : List PieSlice :=
  List.insertionSort pieDescend
    ((accumulate resolvedCategory es).map fun p => ⟨p.1, p.2⟩)

/-- The order of the comparator `(a, b) => b.amount - a.amount`: descending
by amount. -/
def txDescend (a b : GlobalTransaction) : Prop := b.amount ≤ a.amount

instance : DecidableRel txDescend := fun a b =>
  inferInstanceAs (Decidable (b.amount ≤ a.amount))

instance : IsTotal GlobalTransaction txDescend :=
  ⟨fun a b => le_total b.amount a.amount⟩

instance : IsTrans GlobalTransaction txDescend := ⟨fun _ _ _ h1 h2 => le_trans h2 h1⟩

/-- Translation of `handlePieClick`: for a falsy (empty) category name the
handler returns without producing a detail list; otherwise it selects the
filtered records of that resolved category, sorted by amount descending. -/
def handlePieClick (name : String) (filtered : List GlobalTransaction) :
    Option (List GlobalTransaction) :=
  if name = "" then none
  else some (List.insertionSort txDescend
    (filtered.filter fun e => decide (resolvedCategory e = name)))

/-- One point of the daily trend series: `{ day, total }` (the source keeps
`day` as the decimal string `String(i)`; it is kept numeric here). -/
structure TrendPoint where
  day : Nat
  total : Int
deriving DecidableEq, Repr

/-- Translation of the `trendData` memo (the Daily Trend Builder): empty for
`'all'`; otherwise group the filtered records by their caller-local calendar
date (`toLocaleDateString('fr-CA')`), then emit one point per day
`1..daysInMonth` of the selected month, looking each day's total up under the
key `selectedMonth + '-' + dd` (modelled as the date triple), with
`|| 0` gap filling. -/
def trendData (tz : Int) (sel : PeriodKey) (filtered : List GlobalTransaction) :
    List TrendPoint :=
  match sel with
  | .all => []
  | .month y m =>
    let dailyTotals := accumulate (fun e => localCivilDay tz e.timestamp) filtered
    (List.range (daysInMonth y m)).map fun i =>
      { day := i + 1, total := jsOrZero (lookupTotal dailyTotals (y, m, i + 1)) }

/-- One bar pair of the budget comparison: `{ name, Dianggarkan, Terpakai }`. -/
structure BudgetBar where
  name : String
  dianggarkan : Int
  terpakai : Int
deriving DecidableEq, Repr

/-- Translation of the `budgetComparisonData` memo (the Budget Comparator):
group the filtered records by resolved category, then map every budget, in
the budget list's own order, to its allocation and the matching categorical
spend (`expenseByCategory[budget.name] || 0`). -/
def budgetComparisonData (es : List GlobalTransaction) (budgets : List Budget) :
    List BudgetBar :=
  let byCat := accumulate resolvedCategory es
  budgets.map fun b =>
    { name := b.name, dianggarkan := b.totalBudget,
      terpakai := jsOrZero (lookupTotal byCat b.name) }

/-- Lexicographic order on year-month pairs; on the canonical zero-padded
`YYYY-MM` strings this is exactly the JS default string sort order. -/
def keyLE (a b : Nat × Nat) : Prop :=
  a.1 < b.1 ∨ (a.1 = b.1 ∧ a.2 ≤ b.2)

instance : DecidableRel keyLE := fun a b =>
  inferInstanceAs (Decidable (a.1 < b.1 ∨ (a.1 = b.1 ∧ a.2 ≤ b.2)))

instance : IsTotal (Nat × Nat) keyLE := by
  constructor
  intro a b
  rcases Nat.lt_trichotomy a.1 b.1 with h | h | h
  · exact Or.inl (Or.inl h)
  · rcases Nat.le_total a.2 b.2 with h2 | h2
    · exact Or.inl (Or.inr ⟨h, h2⟩)
    · exact Or.inr (Or.inr ⟨h.symm, h2⟩)
  · exact Or.inr (Or.inl h)

instance : IsTrans (Nat × Nat) keyLE := by
  constructor
  intro a b c hab hbc
  rcases hab with h1 | ⟨e1, l1⟩
  · rcases hbc with h2 | ⟨e2, _⟩
    · exact Or.inl (lt_trans h1 h2)
    · exact Or.inl (e2 ▸ h1)
  · rcases hbc with h2 | ⟨e2, l2⟩
    · exact Or.inl (e1 ▸ h2)
    · exact Or.inr ⟨e1.trans e2, le_trans l1 l2⟩

/-- JS `Set.prototype.add`: append the key unless already present. -/
def jsSetInsert (l : List (Nat × Nat)) (k : Nat × Nat) : List (Nat × Nat) :=
  if k ∈ l then l else l ++ [k]

/-- JS `new Set(keys)`: first-occurrence deduplication, in insertion order. -/
def jsSetOf (ks : List (Nat × Nat)) : List (Nat × Nat) :=
  ks.foldl jsSetInsert []

/-- The month keys of the `monthOptions` memo: the set of UTC year-month keys
of the ledger's timestamps (the current month added when there are none),
sorted ascending by the default string sort and reversed. -/
def availableMonthKeys (now : Timestamp) (ledger : List GlobalTransaction) :
    List (Nat × Nat) :=
  let opts := jsSetOf (ledger.map fun t => utcKey t.timestamp)
  let opts2 := if opts.isEmpty then jsSetInsert opts (utcKey now) else opts
  (List.insertionSort keyLE opts2).reverse

/-- Translation of the `monthOptions` memo (the Period Selector's available
periods): the `'all'` sentinel followed by the month keys, most recent
first.  `now` is the current real-world instant (`new Date()`). -/
def monthOptions (now : Timestamp) (ledger : List GlobalTransaction) :
    List PeriodKey :=
  PeriodKey.all :: (availableMonthKeys now ledger).map fun k => PeriodKey.month k.1 k.2

/-- The local civil "today" read by `fetchForecast`: `getFullYear()`,
`getMonth()` (0-based) and `getDate()` of `new Date()`. -/
structure LocalToday where
  year : Nat
  month0 : Nat
  day : Nat
deriving DecidableEq, Repr

/-- The structured numeric payload interpolated into the forecast prompt
(the engine's output to the text-generation collaborator): the four raw
quantities of data lines of the prompt template. -/
structure ForecastPrompt where
  totalIncome : Int
  totalSpendSoFar : Int
  daysElapsed : Nat
  daysInMonth : Nat
deriving DecidableEq, Repr

/-- The outcome of one run of `fetchForecast`: the three informational
non-applicable states, the fixed zero-spend message, or a dispatched
collaborator call carrying the prompt payload. -/
inductive ForecastOutcome
| notApplicableAll
| notCurrentMonth
| noIncome
| zeroSpend
| computed (p : ForecastPrompt)
deriving DecidableEq, Repr

/-- `reduce((sum, e) => sum + e.amount, 0)`. -/
def sumAmounts (l : List GlobalTransaction) : Int :=
  l.foldl (fun s e => s + e.amount) 0

/-- Translation of the `fetchForecast` effect body (the Forecast Engine): the
state machine over the selected period and the local "today".  `filtered` is
the `filteredExpenses` memo value captured by the closure. -/
def fetchForecast (today : LocalToday) (sel : PeriodKey)
    (fundHistory : List FundTx) (filtered : List GlobalTransaction) :
    ForecastOutcome :=
  match sel with
  | .all => .notApplicableAll
  | .month y m =>
    if ¬ (today.year = y ∧ today.month0 = m - 1) then .notCurrentMonth
    else if totalIncomeForMonth (.month y m) fundHistory = 0 then .noIncome
    else
      let daysPassed := today.day
      let totalDaysInMonth := daysInMonth y m
      let totalExpensesSoFar := sumAmounts filtered
      if totalExpensesSoFar = 0 then .zeroSpend
      else .computed
        { totalIncome := totalIncomeForMonth (.month y m) fundHistory,
          totalSpendSoFar := totalExpensesSoFar,
          daysElapsed := daysPassed, daysInMonth := totalDaysInMonth }

/-- The numbers interpolated into the forecast prompt template, in template
order: income, spend so far, days elapsed, days in the month. -/
def promptNumbers (p : ForecastPrompt) : List Int :=
  [p.totalIncome, p.totalSpendSoFar, (p.daysElapsed : Int), (p.daysInMonth : Int)]

/-- Modelled from the spec: the Computed-state daily rate
`dailyRate = totalSpendSoFar / daysElapsed` (spec section 4.6), a derivation
the source delegates to the collaborator rather than computing itself. -/
def specDailyRate (totalSpendSoFar daysElapsed : ℚ) : ℚ :=
  totalSpendSoFar / daysElapsed

/-- Modelled from the spec: `projectedTotal = dailyRate * daysInMonth`
(spec section 4.6). -/
def specProjectedTotal (totalSpendSoFar daysElapsed days : ℚ) : ℚ :=
  specDailyRate totalSpendSoFar daysElapsed * days

/-- Modelled from the spec: `delta = totalIncome - projectedTotal`
(spec section 4.6). -/
def specDelta (totalIncome totalSpendSoFar daysElapsed days : ℚ) : ℚ :=
  totalIncome - specProjectedTotal totalSpendSoFar daysElapsed days

/-! ### Arithmetic and grouping lemmas -/

theorem foldl_add_amount (l : List GlobalTransaction) (a : Int) :
    l.foldl (fun s e => s + e.amount) a = a + (l.map fun e => e.amount).sum := by
  induction l generalizing a with
  | nil => simp
  | cons x t ih => simp [ih, add_assoc]

theorem sumAmounts_eq (l : List GlobalTransaction) :
    sumAmounts l = (l.map fun e => e.amount).sum := by
  simpa using foldl_add_amount l 0

theorem jsOrZero_eq_getD (v : Option Int) : jsOrZero v = v.getD 0 := by
  cases v with
  | none => rfl
  | some x =>
    by_cases hx : x = 0
    · simp [jsOrZero, hx]
    · simp [jsOrZero, hx]

theorem lookupTotal_bump {K : Type} [DecidableEq K]
    (acc : List (K × Int)) (k k2 : K) (v : Int) :
    (lookupTotal (bump acc k v) k2).getD 0 =
      (lookupTotal acc k2).getD 0 + if k = k2 then v else 0 := by
  induction acc with
  | nil =>
    by_cases h : k = k2
    · simp [bump, lookupTotal, h]
    · simp [bump, lookupTotal, h]
  | cons p t ih =>
    obtain ⟨k0, v0⟩ := p
    by_cases h0 : k0 = k
    · subst h0
      by_cases h2 : k0 = k2
      · simp [bump, lookupTotal, h2, add_comm]
      · simp [bump, lookupTotal, h2]
    · by_cases h2 : k0 = k2
      · subst h2
        have hk : ¬ k = k0 := fun h => h0 h.symm
        simp [bump, lookupTotal, h0, hk]
      · simp [bump, lookupTotal, h0, h2, ih]

theorem foldl_bump_lookup {K : Type} [DecidableEq K] (key : GlobalTransaction → K)
    (es : List GlobalTransaction) (acc : List (K × Int)) (k : K) :
    (lookupTotal (es.foldl (fun acc2 e => bump acc2 (key e) e.amount) acc) k).getD 0 =
      (lookupTotal acc k).getD 0 +
        ((es.filter fun e => decide (key e = k)).map fun e => e.amount).sum := by
  induction es generalizing acc with
  | nil => simp
  | cons e t ih =>
    by_cases h : key e = k
    · simp [List.filter_cons, h, ih, lookupTotal_bump, add_assoc]
    · simp [List.filter_cons, h, ih, lookupTotal_bump]

theorem accumulate_lookup {K : Type} [DecidableEq K] (key : GlobalTransaction → K)
    (es : List GlobalTransaction) (k : K) :
    (lookupTotal (accumulate key es) k).getD 0 =
      ((es.filter fun e => decide (key e = k)).map fun e => e.amount).sum := by
  simpa [accumulate, lookupTotal] using foldl_bump_lookup key es [] k

theorem bump_value_sum {K : Type} [DecidableEq K]
    (acc : List (K × Int)) (k : K) (v : Int) :
    ((bump acc k v).map fun p => p.2).sum = (acc.map fun p => p.2).sum + v := by
  induction acc with
  | nil => simp [bump]
  | cons p t ih =>
    obtain ⟨k0, v0⟩ := p
    by_cases h : k0 = k
    · simp [bump, h, add_assoc, add_comm]
    · simp [bump, h, ih, add_assoc]

theorem foldl_bump_value_sum {K : Type} [DecidableEq K] (key : GlobalTransaction → K)
    (es : List GlobalTransaction) (acc : List (K × Int)) :
    ((es.foldl (fun acc2 e => bump acc2 (key e) e.amount) acc).map fun p => p.2).sum =
      (acc.map fun p => p.2).sum + (es.map fun e => e.amount).sum := by
  induction es generalizing acc with
  | nil => simp
  | cons e t ih => simp [ih, bump_value_sum, add_assoc]

theorem accumulate_value_sum {K : Type} [DecidableEq K] (key : GlobalTransaction → K)
    (es : List GlobalTransaction) :
    ((accumulate key es).map fun p => p.2).sum = (es.map fun e => e.amount).sum := by
  simpa [accumulate] using foldl_bump_value_sum key es []

theorem pieChartData_value_sum (es : List GlobalTransaction) :
    ((pieChartData es).map fun p => p.value).sum = (es.map fun e => e.amount).sum := by
  have hperm :
      (pieChartData es).Perm
        ((accumulate resolvedCategory es).map fun p => (⟨p.1, p.2⟩ : PieSlice)) :=
    List.perm_insertionSort pieDescend _
  have h1 := (hperm.map fun p : PieSlice => p.value).sum_eq
  rw [h1, List.map_map]
  simpa using accumulate_value_sum resolvedCategory es

theorem allExpenses_type_remove (s : AppState) :
    ∀ e ∈ allExpenses s, e.type = TxType.remove := by
  intro e he
  simp only [allExpenses, List.mem_append, List.mem_flatMap, List.mem_map,
    List.mem_filter, decide_eq_true_eq] at he
  rcases he with ((⟨a, _, t, ⟨_, ht⟩, rfl⟩ | ⟨t, ⟨_, ht⟩, rfl⟩) | ⟨b, _, h, _, rfl⟩) |
    ⟨t, _, rfl⟩
  · exact ht
  · exact ht
  · rfl
  · rfl

theorem filteredExpenses_subset (sel : PeriodKey) (lg : List GlobalTransaction) :
    ∀ e ∈ filteredExpenses sel lg, e ∈ lg := by
  intro e he
  cases sel with
  | all => exact he
  | month y m => exact (List.mem_filter.mp he).1

theorem orFallback_ne_empty (c : Option String) (fallback : String)
    (h : fallback ≠ "") : orFallback c fallback ≠ "" := by
  cases c with
  | none => exact h
  | some s =>
    by_cases hs : s = ""
    · simpa [orFallback, hs] using h
    · simp [orFallback, hs]

/-! ### Lemmas about the JS `Set` model -/

theorem mem_jsSetInsert (l : List (Nat × Nat)) (k k2 : Nat × Nat) :
    k2 ∈ jsSetInsert l k ↔ k2 ∈ l ∨ k2 = k := by
  by_cases h : k ∈ l
  · simp only [jsSetInsert, if_pos h]
    constructor
    · exact Or.inl
    · rintro (h2 | rfl)
      · exact h2
      · exact h
  · simp [jsSetInsert, if_neg h]

theorem nodup_jsSetInsert (l : List (Nat × Nat)) (k : Nat × Nat)
    (h : l.Nodup) : (jsSetInsert l k).Nodup := by
  by_cases hk : k ∈ l
  · simpa [jsSetInsert, hk] using h
  · simp [jsSetInsert, hk, List.nodup_append, h, List.disjoint_singleton]

theorem mem_foldl_jsSetInsert (ks : List (Nat × Nat)) (acc : List (Nat × Nat))
    (k : Nat × Nat) :
    k ∈ ks.foldl jsSetInsert acc ↔ k ∈ acc ∨ k ∈ ks := by
  induction ks generalizing acc with
  | nil => simp
  | cons a t ih => simp [ih, mem_jsSetInsert, or_assoc]

theorem nodup_foldl_jsSetInsert (ks : List (Nat × Nat)) (acc : List (Nat × Nat))
    (h : acc.Nodup) : (ks.foldl jsSetInsert acc).Nodup := by
  induction ks generalizing acc with
  | nil => exact h
  | cons a t ih => exact ih _ (nodup_jsSetInsert acc a h)

theorem mem_jsSetOf (ks : List (Nat × Nat)) (k : Nat × Nat) :
    k ∈ jsSetOf ks ↔ k ∈ ks := by
  simp [jsSetOf, mem_foldl_jsSetInsert]

theorem nodup_jsSetOf (ks : List (Nat × Nat)) : (jsSetOf ks).Nodup :=
  nodup_foldl_jsSetInsert ks [] (by simp)

theorem jsSetOf_eq_nil_iff (ks : List (Nat × Nat)) : jsSetOf ks = [] ↔ ks = [] := by
  constructor
  · intro h
    cases ks with
    | nil => rfl
    | cons a t =>
      have ha : a ∈ jsSetOf (a :: t) := (mem_jsSetOf _ _).mpr (List.mem_cons_self a t)
      rw [h] at ha
      cases ha
  · rintro rfl
    rfl

/-! ### The Computed-state payload of the forecast engine -/

theorem fetchForecast_computed_eq (today : LocalToday) (y m : Nat)
    (fh : List FundTx) (filtered : List GlobalTransaction) (p : ForecastPrompt)
    (h : fetchForecast today (.month y m) fh filtered = .computed p) :
    p = { totalIncome := totalIncomeForMonth (.month y m) fh,
          totalSpendSoFar := sumAmounts filtered,
          daysElapsed := today.day, daysInMonth := daysInMonth y m } := by
  simp only [fetchForecast] at h
  split_ifs at h
  cases h
  rfl

/-! ### Concrete inputs used by witnesses and counterexamples -/

/-- The local "today" of the spec's forecast example: June 10, 2025
(`getMonth()` is 0-based, so June is 5). -/
def exToday : LocalToday := ⟨2025, 5, 10⟩

/-- A fund credit of 1,000,000 inside June 2025. -/
def exIncome : FundTx := ⟨⟨2025, 6, 1, 8, 0⟩, 1000000, TxType.add⟩

/-- A ledger debit of 300,000 inside June 2025. -/
def exSpend : GlobalTransaction := ⟨⟨2025, 6, 5, 9, 0⟩, 300000, TxType.remove, some "Belanja"⟩

/-- The prompt payload the engine produces at the example input. -/
def exPrompt : ForecastPrompt := ⟨1000000, 300000, 10, 30⟩

/-- Today June 10, 2025, for the future-dated-spend witness. -/
def w10Today : LocalToday := ⟨2025, 5, 10⟩

/-- A fund credit of 500,000 inside June 2025. -/
def w10Income : FundTx := ⟨⟨2025, 6, 1, 8, 0⟩, 500000, TxType.add⟩

/-- A ledger debit of 200,000 dated June 25, 2025 — after "today". -/
def w10Future : GlobalTransaction :=
  ⟨⟨2025, 6, 25, 12, 0⟩, 200000, TxType.remove, some "Belanja"⟩

/-- The prompt payload the engine produces at the future-dated-spend input. -/
def w10Prompt : ForecastPrompt := ⟨500000, 200000, 10, 30⟩

/-- An archived debit transaction whose category field is absent. -/
def c2BadArchiveTx : ArchiveTx := ⟨⟨2025, 1, 5, 10, 0⟩, 100, TxType.remove, none⟩

/-- A state with a category-less archived debit and an empty-named budget
that has spend history. -/
def c2State : AppState :=
  { archives := [⟨[c2BadArchiveTx]⟩], fundHistory := [],
    budgets := [⟨"", 50, [⟨⟨2025, 1, 6, 10, 0⟩, 20⟩]⟩], dailyExpenses := [] }

/-- A state exercising all four provenances with well-formed categories. -/
def w2State : AppState :=
  { archives := [⟨[⟨⟨2025, 1, 3, 1, 0⟩, 10, TxType.remove, some "Arsip"⟩]⟩],
    fundHistory := [⟨⟨2025, 1, 4, 1, 0⟩, 20, TxType.remove⟩],
    budgets := [⟨"Makan", 100, [⟨⟨2025, 1, 5, 1, 0⟩, 30⟩]⟩],
    dailyExpenses := [⟨⟨2025, 1, 6, 1, 0⟩, 40, none⟩] }

/-- A debit at 23:00 UTC on the last day of January 2024: its UTC month is
January, but its local calendar date at offset UTC+2 is February 1. -/
def c3Tx : GlobalTransaction := ⟨⟨2024, 1, 31, 23, 0⟩, 500, TxType.remove, some "Belanja"⟩

/-! ### Claim theorems -/

/-- C1 counterexample: at the spec's own Computed-state example
(totalIncome 1,000,000; totalSpendSoFar 300,000; daysElapsed 10;
daysInMonth 30) the engine reaches the Computed state, but the structured
numeric payload it hands the text-generation collaborator consists of the
four raw quantities only; the derived numbers projectedTotal = 900,000 and
delta = +100,000 demanded by the claim are not part of the engine's output —
their derivation is delegated to the collaborator. -/
theorem claim_C1_counterexample :
    fetchForecast exToday (.month 2025 6) [exIncome]
        (filteredExpenses (.month 2025 6) [exSpend]) = .computed exPrompt ∧
      promptNumbers exPrompt = [1000000, 300000, 10, 30] ∧
      specProjectedTotal 300000 10 30 = 900000 ∧
      specDelta 1000000 300000 10 30 = 100000 ∧
      (900000 : Int) ∉ promptNumbers exPrompt ∧
      (100000 : Int) ∉ promptNumbers exPrompt := by
  refine ⟨by decide, by decide, ?_, ?_, by decide, by decide⟩
  · norm_num [specProjectedTotal, specDailyRate]
  · norm_num [specDelta, specProjectedTotal, specDailyRate]

/-- C1 (amended): whenever the Computed state is reached, the engine's
structured output to the collaborator is the quadruple of raw inputs
(total income of the month, total spend over the whole selected month, the
day-of-month of "now", the day count of the month); applying the spec's
projection formulas to the example quadruple yields dailyRate 30,000,
projectedTotal 900,000 and a surplus delta of +100,000. -/
theorem claim_C1_raw_payload (today : LocalToday) (y m : Nat)
    (fh : List FundTx) (lg : List GlobalTransaction) (p : ForecastPrompt)
    (h : fetchForecast today (.month y m) fh (filteredExpenses (.month y m) lg)
        = .computed p) :
    promptNumbers p =
        [totalIncomeForMonth (.month y m) fh,
          ((lg.filter fun e => decide (utcKey e.timestamp = (y, m))).map
            fun e => e.amount).sum,
          (today.day : Int), (daysInMonth y m : Int)] ∧
      specDailyRate 300000 10 = 30000 ∧
      specProjectedTotal 300000 10 30 = 900000 ∧
      specDelta 1000000 300000 10 30 = 100000 ∧
      0 < specDelta 1000000 300000 10 30 := by
  refine ⟨?_, ?_, ?_, ?_, ?_⟩
  · have h2 := fetchForecast_computed_eq today y m fh _ p h
    rw [h2]
    simp only [promptNumbers, List.cons.injEq, and_true, true_and]
    simpa [filteredExpenses] using sumAmounts_eq (filteredExpenses (.month y m) lg)
  · norm_num [specDailyRate]
  · norm_num [specProjectedTotal, specDailyRate]
  · norm_num [specDelta, specProjectedTotal, specDailyRate]
  · norm_num [specDelta, specProjectedTotal, specDailyRate]

/-- C1 witness: the amended statement applied at the spec's example input. -/
theorem claim_C1_witness :
    promptNumbers exPrompt =
        [totalIncomeForMonth (.month 2025 6) [exIncome],
          (([exSpend].filter fun e => decide (utcKey e.timestamp = (2025, 6))).map
            fun e => e.amount).sum,
          (exToday.day : Int), (daysInMonth 2025 6 : Int)] ∧
      specDailyRate 300000 10 = 30000 ∧
      specProjectedTotal 300000 10 30 = 900000 ∧
      specDelta 1000000 300000 10 30 = 100000 ∧
      0 < specDelta 1000000 300000 10 30 :=
  claim_C1_raw_payload exToday 2025 6 [exIncome] [exSpend] exPrompt (by decide)

/-- C2 counterexample: the normalizer passes archive records through with
their category untouched and stamps budget-history records with the budget's
name verbatim, so a category-less archived debit and an empty-named budget
both yield ledger records without a non-empty category. -/
theorem claim_C2_counterexample :
    (¬ ∀ e ∈ allExpenses c2State, e.category ≠ none ∧ e.category ≠ some "") ∧
      (∃ e ∈ allExpenses c2State, e.category = none) ∧
      (∃ e ∈ allExpenses c2State, e.category = some "") := by
  refine ⟨by decide, by decide, by decide⟩

/-- C2 (amended): every normalized record coming from fund history, budget
history or daily expenses carries a non-empty category (daily expenses fall
back to "Harian"), and provided every archived debit already carries a
non-empty category and every budget name is non-empty — which the normalizer
itself does not enforce — every record of the unified ledger has a non-empty
category. -/
theorem claim_C2_normalizer_category (s : AppState)
    (harch : ∀ a ∈ s.archives, ∀ t ∈ a.transactions,
      t.category ≠ none ∧ t.category ≠ some "")
    (hbud : ∀ b ∈ s.budgets, b.name ≠ "") :
    ∀ e ∈ allExpenses s, e.category ≠ none ∧ e.category ≠ some "" := by
  intro e he
  simp only [allExpenses, List.mem_append, List.mem_flatMap, List.mem_map,
    List.mem_filter, decide_eq_true_eq] at he
  rcases he with ((⟨a, ha, t, ⟨ht, _⟩, rfl⟩ | ⟨t, ⟨_, _⟩, rfl⟩) | ⟨b, hb, h, _, rfl⟩) |
    ⟨t, _, rfl⟩
  · exact harch a ha t ht
  · exact ⟨by simp, by simp⟩
  · exact ⟨by simp, by simpa using hbud b hb⟩
  · exact ⟨by simp, by simpa using
      orFallback_ne_empty t.sourceCategory "Harian" (by simp)⟩

/-- C2 witness: the amended invariant applied to a state exercising all four
provenances, with the fallback taken by a category-less daily expense. -/
theorem claim_C2_witness :
    (∀ a ∈ w2State.archives, ∀ t ∈ a.transactions,
        t.category ≠ none ∧ t.category ≠ some "") ∧
      (∀ b ∈ w2State.budgets, b.name ≠ "") ∧
      ∀ e ∈ allExpenses w2State, e.category ≠ none ∧ e.category ≠ some "" :=
  ⟨by decide, by decide, claim_C2_normalizer_category w2State (by decide) (by decide)⟩

/-- C3: the period filter buckets `c3Tx` into January 2024 by its UTC month,
but the daily trend builder groups it by its caller-local calendar date; at
offset UTC+2 that date is February 1, which matches no lookup key of the
January series, so the 500 of filtered amount vanishes from the daily totals
(while at offset 0 it is preserved) — the code uses two different time zones
and drops filtered amounts, contradicting the claimed conservation. -/
theorem claim_C3_tz_divergence :
    filteredExpenses (.month 2024 1) [c3Tx] = [c3Tx] ∧
      localCivilDay 120 c3Tx.timestamp = (2024, 2, 1) ∧
      ((trendData 120 (.month 2024 1) (filteredExpenses (.month 2024 1) [c3Tx])).map
          fun q => q.total).sum = 0 ∧
      (((filteredExpenses (.month 2024 1) [c3Tx]).map fun e => e.amount).sum = 500) ∧
      ((trendData 0 (.month 2024 1) (filteredExpenses (.month 2024 1) [c3Tx])).map
          fun q => q.total).sum = 500 := by
  exact ⟨by decide, by decide, by decide, by decide, by decide⟩

/-- C4: for every application state and selected period, the category totals
of the categorical aggregator sum to the same grand total as the amounts of
all filtered debit records (and every filtered record is a debit). -/
theorem claim_C4_categorical_conservation (s : AppState) (sel : PeriodKey) :
    ((pieChartData (filteredExpenses sel (allExpenses s))).map fun p => p.value).sum =
      (((filteredExpenses sel (allExpenses s)).filter fun e =>
          decide (e.type = TxType.remove)).map fun e => e.amount).sum := by
  have hall : ∀ e ∈ filteredExpenses sel (allExpenses s), e.type = TxType.remove :=
    fun e he => allExpenses_type_remove s e (filteredExpenses_subset sel _ e he)
  have hfe : (filteredExpenses sel (allExpenses s)).filter
      (fun e => decide (e.type = TxType.remove)) = filteredExpenses sel (allExpenses s) :=
    List.filter_eq_self.mpr fun e he => by simpa using hall e he
  rw [hfe, pieChartData_value_sum]

/-- C9: selecting the "all" period yields an empty daily trend series and a
zero income total, for every ledger, offset and fund history, without
inspecting any fund-history entry. -/
theorem claim_C9_all_period_non_applicability (tz : Int)
    (fh : List FundTx) (filtered : List GlobalTransaction) :
    trendData tz PeriodKey.all filtered = [] ∧
      totalIncomeForMonth PeriodKey.all fh = 0 :=
  ⟨rfl, rfl⟩

/-- C10: whenever the current-month forecast reaches the Computed state, the
spend-so-far of its payload is the sum of the amounts of every ledger record
whose UTC month is the selected month — a filter that never consults the
day-of-month of "now", so records dated after today are included. -/
theorem claim_C10_forecast_spend_full_month (today : LocalToday) (y m : Nat)
    (fh : List FundTx) (lg : List GlobalTransaction) (p : ForecastPrompt)
    (h : fetchForecast today (.month y m) fh (filteredExpenses (.month y m) lg)
        = .computed p) :
    p.totalSpendSoFar =
      ((lg.filter fun e => decide (utcKey e.timestamp = (y, m))).map
        fun e => e.amount).sum := by
  have h2 := fetchForecast_computed_eq today y m fh _ p h
  rw [h2]
  simpa [filteredExpenses] using sumAmounts_eq (filteredExpenses (.month y m) lg)

/-- C10 witness: with today = June 10, 2025 and a single ledger debit dated
June 25, 2025, the Computed payload's spend-so-far is that future-dated
record's full amount. -/
theorem claim_C10_witness :
    fetchForecast w10Today (.month 2025 6) [w10Income]
        (filteredExpenses (.month 2025 6) [w10Future]) = .computed w10Prompt ∧
      w10Prompt.totalSpendSoFar =
        (([w10Future].filter fun e => decide (utcKey e.timestamp = (2025, 6))).map
          fun e => e.amount).sum :=
  ⟨by decide, claim_C10_forecast_spend_full_month w10Today 2025 6 [w10Income]
    [w10Future] w10Prompt (by decide)⟩

/-- C5: for every selected month the daily trend series is exactly one entry
per day `1..daysInMonth` in ascending order, each carrying the summed total
of the filtered records grouped on that calendar day (0 when none); the
month length follows the Gregorian rules, with February yielding 29 in a
leap year and 28 otherwise. -/
theorem claim_C5_trend_month_shape (tz : Int) (y m : Nat)
    (filtered : List GlobalTransaction) :
    trendData tz (.month y m) filtered =
        (List.range (daysInMonth y m)).map (fun i =>
          ({ day := i + 1,
             total := ((filtered.filter fun e =>
                 decide (localCivilDay tz e.timestamp = (y, m, i + 1))).map
               fun e => e.amount).sum } : TrendPoint)) ∧
      (trendData tz (.month y m) filtered).length = daysInMonth y m ∧
      (∀ year, daysInMonth year 2 = if isLeapYear year then 29 else 28) ∧
      daysInMonth 2024 2 = 29 ∧ daysInMonth 2023 2 = 28 := by
  have hmain : trendData tz (.month y m) filtered =
      (List.range (daysInMonth y m)).map (fun i =>
        ({ day := i + 1,
           total := ((filtered.filter fun e =>
               decide (localCivilDay tz e.timestamp = (y, m, i + 1))).map
             fun e => e.amount).sum } : TrendPoint)) := by
    simp only [trendData]
    refine List.map_congr_left ?_
    intro i _
    rw [jsOrZero_eq_getD, accumulate_lookup]
  refine ⟨hmain, ?_, ?_, by decide, by decide⟩
  · rw [hmain]
    simp
  · intro year
    simp [daysInMonth]

/-- C6: the budget comparator emits exactly one tuple per budget, in the
budget list's own order, carrying the budget's allocation and the aggregated
categorical spend whose (fallback-resolved) category equals the budget's
name — the empty sum, 0, when no spend matches. -/
theorem claim_C6_budget_join (es : List GlobalTransaction) (budgets : List Budget) :
    budgetComparisonData es budgets =
        budgets.map (fun b =>
          ({ name := b.name, dianggarkan := b.totalBudget,
             terpakai := ((es.filter fun e =>
                 decide (resolvedCategory e = b.name)).map
               fun e => e.amount).sum } : BudgetBar)) ∧
      (budgetComparisonData es budgets).length = budgets.length := by
  have hmain : budgetComparisonData es budgets =
      budgets.map (fun b =>
        ({ name := b.name, dianggarkan := b.totalBudget,
           terpakai := ((es.filter fun e =>
               decide (resolvedCategory e = b.name)).map
             fun e => e.amount).sum } : BudgetBar)) := by
    simp only [budgetComparisonData]
    refine List.map_congr_left ?_
    intro b _
    rw [jsOrZero_eq_getD, accumulate_lookup]
  refine ⟨hmain, ?_⟩
  rw [hmain]
  simp

/-- C7: the period options are the "all" sentinel followed by the distinct
UTC year-month keys of the ledger's timestamps sorted descending, and for an
empty ledger exactly the current real-world year-month, so at least one
concrete period is always selectable. -/
theorem claim_C7_month_options (now : Timestamp) (lg : List GlobalTransaction) :
    monthOptions now lg =
        PeriodKey.all ::
          (availableMonthKeys now lg).map (fun k => PeriodKey.month k.1 k.2) ∧
      (availableMonthKeys now lg).Sorted (fun a b => keyLE b a) ∧
      (availableMonthKeys now lg).Nodup ∧
      ∀ k, k ∈ availableMonthKeys now lg ↔
        (if lg = [] then k = utcKey now
         else k ∈ lg.map fun t => utcKey t.timestamp) := by
  have havail : availableMonthKeys now lg =
      (List.insertionSort keyLE
        (if (jsSetOf (lg.map fun t => utcKey t.timestamp)).isEmpty
         then jsSetInsert (jsSetOf (lg.map fun t => utcKey t.timestamp)) (utcKey now)
         else jsSetOf (lg.map fun t => utcKey t.timestamp))).reverse := rfl
  have hnodup2 : (if (jsSetOf (lg.map fun t => utcKey t.timestamp)).isEmpty
      then jsSetInsert (jsSetOf (lg.map fun t => utcKey t.timestamp)) (utcKey now)
      else jsSetOf (lg.map fun t => utcKey t.timestamp)).Nodup := by
    split_ifs
    · exact nodup_jsSetInsert _ _ (nodup_jsSetOf _)
    · exact nodup_jsSetOf _
  refine ⟨rfl, ?_, ?_, ?_⟩
  · rw [havail]
    exact List.pairwise_reverse.mpr (List.sorted_insertionSort keyLE _)
  · rw [havail]
    exact List.nodup_reverse.mpr ((List.perm_insertionSort keyLE _).nodup_iff.mpr hnodup2)
  · intro k
    rw [havail, List.mem_reverse, (List.perm_insertionSort keyLE _).mem_iff]
    by_cases hlg : lg = []
    · subst hlg
      simp [jsSetOf, jsSetInsert]
    · have hks : (lg.map fun t => utcKey t.timestamp) ≠ [] := by
        simpa [List.map_eq_nil_iff] using hlg
      have hset : jsSetOf (lg.map fun t => utcKey t.timestamp) ≠ [] :=
        fun h2 => hks ((jsSetOf_eq_nil_iff _).mp h2)
      have hempty : (jsSetOf (lg.map fun t => utcKey t.timestamp)).isEmpty = false := by
        cases hb : (jsSetOf (lg.map fun t => utcKey t.timestamp)).isEmpty
        · rfl
        · exact absurd (List.isEmpty_iff.mp hb) hset
      simp [hempty, mem_jsSetOf, hlg]

/-- C8: for every non-empty category name the click-to-detail query returns
exactly the filtered records of that resolved category, sorted by amount
descending, and the empty list when none match. -/
theorem claim_C8_click_detail (name : String) (filtered : List GlobalTransaction)
    (h : name ≠ "") :
    ∃ l, handlePieClick name filtered = some l ∧
      l.Perm (filtered.filter fun e => decide (resolvedCategory e = name)) ∧
      l.Sorted txDescend ∧
      ((filtered.filter fun e => decide (resolvedCategory e = name)) = [] → l = []) := by
  refine ⟨List.insertionSort txDescend
    (filtered.filter fun e => decide (resolvedCategory e = name)), ?_, ?_, ?_, ?_⟩
  · simp [handlePieClick, h]
  · exact List.perm_insertionSort txDescend _
  · exact List.sorted_insertionSort txDescend _
  · intro hnil
    rw [hnil]
    rfl

/-- A filtered debit of 50 in the "Makan" category. -/
def w8a : GlobalTransaction := ⟨⟨2025, 2, 1, 0, 0⟩, 50, TxType.remove, some "Makan"⟩

/-- A filtered debit of 70 in the "Makan" category. -/
def w8b : GlobalTransaction := ⟨⟨2025, 2, 2, 0, 0⟩, 70, TxType.remove, some "Makan"⟩

/-- A filtered debit of 30 in the "Transport" category. -/
def w8c : GlobalTransaction := ⟨⟨2025, 2, 3, 0, 0⟩, 30, TxType.remove, some "Transport"⟩

/-- C8 witness: the detail query at the concrete category "Makan" over three
records, two of which match. -/
theorem claim_C8_witness :
    ("Makan" : String) ≠ "" ∧
      ∃ l, handlePieClick "Makan" [w8a, w8b, w8c] = some l ∧
        l.Perm ([w8a, w8b, w8c].filter fun e => decide (resolvedCategory e = "Makan")) ∧
        l.Sorted txDescend ∧
        (([w8a, w8b, w8c].filter fun e => decide (resolvedCategory e = "Makan")) = []
          → l = []) :=
  ⟨by decide, claim_C8_click_detail "Makan" [w8a, w8b, w8c] (by decide)⟩

end Anggaran
